import Mathlib

set_option maxRecDepth 100000

/-!
Verification development for a YouTube-video summarizer (`app.py`).

The program has three core functions — `extract_video_id`, `get_transcript_text`
and `generate_summary` — plus UI glue that wires them together.  This file embeds
those functions (and the pieces of `urllib.parse` they depend on) as executable
Lean definitions and proves the specified properties about them.

Conventions of the embedding:
  * Python strings are `String`, manipulated through `List Char` so that every
    operation is a structural recursion the kernel can evaluate.
  * Fallible Python code returns `Except String α`; the error payload is the
    `str(e)` text of the raised exception.
  * `st.error` / `st.warning` side effects are collected in an `Out` record.
  * Only ASCII inputs are exercised; `Char.toLower` and the ASCII whitespace
    predicate model `str.lower` / `str.strip` on that fragment.
-/

/-! ## Character-list utilities (models of Python string operations) -/

/-- Model of `str.split(c)` for a one-character separator: consecutive
separators yield empty pieces, and the empty string yields `[""]`. -/
def splitOnChar (c : Char) : List Char → List (List Char)
  | [] => [[]]
  | x :: xs =>
    match splitOnChar c xs with
    | [] => [[]]
    | h :: t => if x = c then [] :: h :: t else (x :: h) :: t

/-- Split at the first occurrence of `c`: returns the part before it and,
when `c` occurs, the part after it (models `str.partition` / `str.split(c, 1)`). -/
def splitFirst (c : Char) : List Char → List Char × Option (List Char)
  | [] => ([], none)
  | x :: xs =>
    if x = c then ([], some xs)
    else
      match splitFirst c xs with
      | (a, b) => (x :: a, b)

/-- Take characters up to the first `'/'`, `'?'` or `'#'` (the delimiters that
terminate the network location in `urllib.parse._splitnetloc`). -/
def splitUntilDelim : List Char → List Char × List Char
  | [] => ([], [])
  | c :: cs =>
    if c = '/' ∨ c = '?' ∨ c = '#' then ([], c :: cs)
    else
      match splitUntilDelim cs with
      | (a, b) => (c :: a, b)

/-- Split at the first `':'` (used for scheme detection). -/
def takeUntilColon : List Char → Option (List Char × List Char)
  | [] => none
  | c :: cs =>
    if c = ':' then some ([], cs)
    else (takeUntilColon cs).map (fun p => (c :: p.1, p.2))

/-- Model of `path[1:]`. -/
def pyDrop1 (s : String) : String := (s.toList.drop 1).asString

/-- Model of `path.split('/')`. -/
def pySplitSlash (s : String) : List String :=
  (splitOnChar '/' s.toList).map List.asString

/-- Boolean character-level test that `pre` is an initial segment of a string's
characters. -/
def listIsPfx : List Char → List Char → Bool
  | [], _ => true
  | _ :: _, [] => false
  | a :: as, b :: bs => (a == b) && listIsPfx as bs

/-- Model of `str.startswith(pre)`. -/
def charStartsWith (s pre : String) : Bool := listIsPfx pre.toList s.toList

/-- ASCII whitespace, as stripped by `str.strip()` on ASCII text. -/
def isPySpace (c : Char) : Bool :=
  c = ' ' || c = '\t' || c = '\n' || c = '\r' || c = '\x0b' || c = '\x0c'

/-- Model of `str.strip()` (ASCII fragment). -/
def pyStrip (s : String) : String :=
  (((s.toList.dropWhile isPySpace).reverse.dropWhile isPySpace).reverse).asString

/-- Model of `" ".join(xs)`. -/
def joinWithSpace : List String → String
  | [] => ""
  | [x] => x
  | x :: y :: xs => x ++ " " ++ joinWithSpace (y :: xs)

/-- Model of `str.lower()` (ASCII fragment). -/
def pyLower (s : String) : String := (s.toList.map Char.toLower).asString

/-! ## Model of `urllib.parse.urlsplit` / `urlparse`

Follows CPython 3.11's `urlsplit`: leading C0-control-or-space characters are
stripped (trailing ones are preserved), embedded tab/CR/LF are removed, an
alphabetic scheme is split off at the first `':'`, a `//`-introduced network
location runs up to the next `/`, `?` or `#`, a mismatched square bracket in
the network location raises `ValueError("Invalid IPv6 URL")`, a bracketed host
is validated by `_check_bracketed_host` (valid IPv6 or IPvFuture text, each
`ValueError` message modelled verbatim), then fragment (after the first `#`)
and query (after the first `?`) are split off.  The one elision is the NFKC
net-location check, which can only raise for a non-ASCII network location;
every resolver theorem below therefore restricts to ASCII network
locations, where the model is exact. -/

def isSchemeChar (c : Char) : Bool :=
  c.isAlpha || c.isDigit || c = '+' || c = '-' || c = '.'

/-- Split a leading `scheme:` off the URL, returning (scheme, rest).  The scheme
must be nonempty, start with a letter and consist of scheme characters;
otherwise no scheme is recognised and the input is returned unchanged. -/
def splitScheme (l : List Char) : List Char × List Char :=
  match takeUntilColon l with
  | some (c :: pre, rest) =>
    if c.isAlpha && pre.all isSchemeChar then ((c :: pre).map Char.toLower, rest)
    else ([], l)
  | some ([], _) => ([], l)
  | none => ([], l)

structure SplitResult where
  scheme : String
  netloc : String
  path : String
  query : String
  fragment : String
deriving DecidableEq, Repr

/-- Strip leading C0-control-or-space characters (`urlsplit` only lstrips,
preserving trailing spaces). -/
def lstripC0 (l : List Char) : List Char :=
  l.dropWhile (fun c => c.toNat ≤ 32)

/-- The sanitisation pass of `urlsplit`: strip leading C0-control-or-space
characters, remove embedded tab/CR/LF. -/
def sanitizeUrl (url : String) : List Char :=
  (lstripC0 url.toList).filter (fun c => !(c = '\t' || c = '\r' || c = '\n'))

/-- Scheme and remainder of the sanitised URL. -/
def urlSchemeRest (url : String) : List Char × List Char :=
  splitScheme (sanitizeUrl url)

/-- Network location and remainder: a `//`-introduced netloc runs up to the
next `/`, `?` or `#`; otherwise the netloc is empty. -/
def urlNetlocRest (url : String) : List Char × List Char :=
  match (urlSchemeRest url).2 with
  | '/' :: '/' :: r => splitUntilDelim r
  | rest0 => ([], rest0)

/-- The mismatched-square-bracket check that makes `urlsplit` raise
`ValueError("Invalid IPv6 URL")`. -/
def badBrackets (netloc : List Char) : Bool :=
  (netloc.contains '[' && !netloc.contains ']')
    || (netloc.contains ']' && !netloc.contains '[')

/-! Validation of bracketed hosts, as performed by CPython 3.11's
`urlsplit` via `_check_bracketed_host` / `ipaddress.ip_address`.  The host
text cannot contain `/`, `?`, `#` or newlines (the net-location split and
sanitisation remove them), so the corresponding guards of `ipaddress` are
vacuous here. -/

def isAsciiCh (c : Char) : Bool := decide (c.toNat ≤ 127)

def isAsciiDigit (c : Char) : Bool := '0' ≤ c && c ≤ '9'

def isHexCh (c : Char) : Bool :=
  isAsciiDigit c || ('a' ≤ c && c ≤ 'f') || ('A' ≤ c && c ≤ 'F')

/-- Numeric value of a decimal digit string. -/
def octetVal (l : List Char) : Nat :=
  l.foldl (fun a c => a * 10 + (c.toNat - '0'.toNat)) 0

/-- `ipaddress._BaseV4._parse_octet`: non-empty, ASCII decimal digits, at
most 3 characters, no leading zero (unless exactly `0`), value at most 255. -/
def validOctet (l : List Char) : Bool :=
  !l.isEmpty && l.all isAsciiDigit && decide (l.length ≤ 3)
    && (decide (l = ['0']) || !(l.headD '0' = '0' : Bool))
    && decide (octetVal l ≤ 255)

/-- `IPv4Address` validity: exactly four valid octets separated by dots. -/
def isValidIPv4 (l : List Char) : Bool :=
  let octets := splitOnChar '.' l
  decide (octets.length = 4) && octets.all validOctet

/-- `ipaddress._BaseV6._parse_hextet`: 1–4 hex digits (the empty hextet is
rejected there by the integer conversion). -/
def validHextet (l : List Char) : Bool :=
  !l.isEmpty && decide (l.length ≤ 4) && l.all isHexCh

/-- The structural part of `_BaseV6._ip_int_from_string` after the optional
IPv4 suffix has been replaced by two hextets: at most 9 parts, at most one
empty interior part (the `::`), a leading/trailing empty part only next to
the `::`, at most 7 explicit parts when `::` is present (else exactly 8),
and every counted part a valid hextet. -/
def ipv6Parts (parts : List (List Char)) : Bool :=
  let n := parts.length
  if n > 9 then false
  else
    let interior := (parts.drop 1).dropLast
    let ec := (interior.filter (fun p => p.isEmpty)).length
    if 2 ≤ ec then false
    else if ec = 1 then
      let s := ((interior.findIdx? (fun p => p.isEmpty)).getD 0) + 1
      let firstEmpty := (parts.headD ['0']).isEmpty
      let lastEmpty := (parts.getLastD ['0']).isEmpty
      if firstEmpty ∧ s ≠ 1 then false
      else if lastEmpty ∧ s ≠ n - 2 then false
      else
        let hi := if firstEmpty then 0 else s
        let lo := if lastEmpty then 0 else n - s - 1
        decide (hi + lo ≤ 7) && (parts.take hi).all validHextet
          && (parts.drop (n - lo)).all validHextet
    else
      decide (n = 8) && parts.all validHextet

/-- `IPv6Address` validity of the address part (scope id already removed):
split on `:`; fewer than 3 parts is invalid; a dotted last part must be a
valid IPv4 address and stands for two hextets (represented here by `0`,
whose value is irrelevant to validity). -/
def isValidIPv6Addr (addr : List Char) : Bool :=
  let parts0 := splitOnChar ':' addr
  if parts0.length < 3 then false
  else if (parts0.getLastD []).contains '.' then
    isValidIPv4 (parts0.getLastD []) && ipv6Parts (parts0.dropLast ++ [['0'], ['0']])
  else ipv6Parts parts0

/-- `IPv6Address` validity including the `%scope` suffix (`_split_scope_id`:
a `%` must be followed by a non-empty scope containing no further `%`). -/
def isValidIPv6 (l : List Char) : Bool :=
  match splitFirst '%' l with
  | (addr, none) => isValidIPv6Addr addr
  | (addr, some scope) => !scope.isEmpty && !scope.contains '%' && isValidIPv6Addr addr

/-- The IPvFuture shape accepted by `_check_bracketed_host`: regex
`v[a-fA-F0-9]+\..+` (lower-case `v`, one or more hex digits, a dot, then at
least one more character). -/
def ipvFutureValid : List Char → Bool
  | 'v' :: rest =>
    let hexRun := rest.takeWhile isHexCh
    !hexRun.isEmpty &&
      (match rest.drop hexRun.length with
       | '.' :: tail => !tail.isEmpty
       | _ => false)
  | _ => false

/-- `netloc.partition('[')[2].partition(']')[0]`: the bracketed host text. -/
def bracketedHostOf (netloc : List Char) : List Char :=
  ((splitFirst '[' netloc).2.getD []).takeWhile (fun c => c ≠ ']')

/-- `_check_bracketed_host` (CPython 3.11): `some` of the `ValueError`
message when it raises, `none` when the bracketed host is accepted.  The
`repr` in the last message is modelled for hosts without quote characters. -/
def checkBracketedHost (h : List Char) : Option String :=
  match h with
  | 'v' :: _ =>
    if ipvFutureValid h then none else some "IPvFuture address is invalid"
  | _ =>
    if isValidIPv4 h then some "An IPv4 address cannot be in brackets"
    else if isValidIPv6 h then none
    else some ("\x27" ++ h.asString ++ "\x27 does not appear to be an IPv4 or IPv6 address")

/-- The components `urlsplit` produces when it does not raise: fragment after
the first `#`, query after the first `?` of what precedes the fragment. -/
def urlsplitOk (url : String) : SplitResult :=
  match splitFirst '#' (urlNetlocRest url).2 with
  | (rest2, frag?) =>
    match splitFirst '?' rest2 with
    | (pathC, query?) =>
      ⟨(urlSchemeRest url).1.asString, (urlNetlocRest url).1.asString, pathC.asString,
        (query?.getD []).asString, (frag?.getD []).asString⟩

def urlsplitE (url : String) : Except String SplitResult :=
  let netloc := (urlNetlocRest url).1
  if badBrackets netloc then Except.error "Invalid IPv6 URL"
  else if netloc.contains '[' && netloc.contains ']' then
    match checkBracketedHost (bracketedHostOf netloc) with
    | some e => Except.error e
    | none => Except.ok (urlsplitOk url)
  else Except.ok (urlsplitOk url)

/-- Model of `urllib.parse._splitparams`: drop a `;params` suffix from the last
path segment (the params value itself is unused by the program). -/
def splitParams (path : List Char) : List Char :=
  if path.contains '/' then
    match splitFirst '/' path.reverse with
    | (revSeg, revRest) =>
      let seg := revSeg.reverse
      let pre := ((revRest.getD []).reverse) ++ ['/']
      match splitFirst ';' seg with
      | (a, some _) => pre ++ a
      | (_, none) => path
  else
    match splitFirst ';' path with
    | (a, some _) => a
    | (_, none) => path

/-- The schemes for which `urlparse` splits `;params` off the path
(`urllib.parse.uses_params`; note the empty scheme is among them). -/
def uses_params : List String :=
  ["", "ftp", "hdl", "prospero", "http", "imap", "https", "shttp", "rtsp",
   "rtsps", "rtspu", "sip", "sips", "mms", "sftp", "tel"]

/-- The components `urlparse` produces when it does not raise: `urlsplit`
plus params removal, applied only when the scheme uses params
(`if scheme in uses_params and ';' in url`). -/
def urlparseOk (url : String) : SplitResult :=
  let r := urlsplitOk url
  if uses_params.contains r.scheme && r.path.toList.contains ';' then
    { r with path := (splitParams r.path.toList).asString }
  else r

/-- Model of `urllib.parse.urlparse`: `urlsplit` (with its `ValueError`
paths) plus scheme-gated params removal. -/
def urlparseE (url : String) : Except String SplitResult :=
  match urlsplitE url with
  | Except.error e => Except.error e
  | Except.ok _ => Except.ok (urlparseOk url)

/-- The part of the network location after the last `'@'` (`rpartition('@')`). -/
def afterLastAt (l : List Char) : List Char :=
  (l.reverse.takeWhile (fun c => c ≠ '@')).reverse

/-- Model of `ParseResult.hostname`: user-info is dropped, a bracketed host is
the text between `'['` and `']'`, otherwise the host runs up to the first
`':'`; the result is lower-cased, and an empty host is `None`. -/
def hostname (r : SplitResult) : Option String :=
  let hostinfo := afterLastAt r.netloc.toList
  let h :=
    if hostinfo.contains '[' then
      ((splitFirst '[' hostinfo).2.getD []).takeWhile (fun c => c ≠ ']')
    else hostinfo.takeWhile (fun c => c ≠ ':')
  let h := h.map Char.toLower
  if h.isEmpty then none else some h.asString

/-! ## Model of `urllib.parse.parse_qs` (lookup fragment)

`parse_qsl` with default arguments: fields are split on `'&'`, fields without
`'='` or with an empty raw value are dropped, `'+'` becomes a space and
percent-escapes are decoded in both name and value.  Each decoded `%XX` becomes
the character with that code point (multi-byte UTF-8 sequences are not
recombined; ASCII escapes are exact). -/

def hexVal (c : Char) : Option Nat :=
  if '0' ≤ c ∧ c ≤ '9' then some (c.toNat - '0'.toNat)
  else if 'a' ≤ c ∧ c ≤ 'f' then some (c.toNat - 'a'.toNat + 10)
  else if 'A' ≤ c ∧ c ≤ 'F' then some (c.toNat - 'A'.toNat + 10)
  else none

/-- Model of `urllib.parse.unquote` on a character list: a `%` followed by two
hex digits decodes to that code point, otherwise the `%` is kept literally. -/
def unquoteList : List Char → List Char
  | [] => []
  | '%' :: a :: b :: rest =>
    match hexVal a, hexVal b with
    | some ha, some hb => Char.ofNat (16 * ha + hb) :: unquoteList rest
    | _, _ => '%' :: unquoteList (a :: b :: rest)
  | c :: rest => c :: unquoteList rest

/-- `unquote(s.replace('+', ' '))`, as applied by `parse_qsl` to names and
values. -/
def unquotePlus (l : List Char) : String :=
  (unquoteList (l.map (fun c => if c = '+' then ' ' else c))).asString

/-- One `name=value` field of a query string; `none` when `parse_qsl` drops the
field (empty field, no `'='`, or empty raw value). -/
def qsPair (nv : List Char) : Option (String × String) :=
  if nv = [] then none
  else
    match splitFirst '=' nv with
    | (_, none) => none
    | (name, some value) =>
      if value = [] then none
      else some (unquotePlus name, unquotePlus value)

/-- Model of `parse_qsl(qs)` with default arguments. -/
def parse_qsl (qs : String) : List (String × String) :=
  (splitOnChar '&' qs.toList).filterMap qsPair

/-- All values associated with key `k`, in order of appearance. -/
def valuesFor (k : String) : List (String × String) → List String
  | [] => []
  | (k', v) :: rest =>
    if k' = k then v :: valuesFor k rest else valuesFor k rest

/-- Model of the dictionary lookup `parse_qs(qs)[k]`: `some` of the value list
when the key occurs, `none` (a `KeyError`) otherwise. -/
def parse_qs_get (qs k : String) : Option (List String) :=
  let pairs := parse_qsl qs
  if pairs.any (fun p => p.1 == k) then some (valuesFor k pairs) else none

/-! ## `extract_video_id` (app.py lines 13–25) -/

/-- The host/path dispatch of `extract_video_id` (lines 16–25), applied to the
parsed URL.  On the `/watch` path a missing `v` parameter is the `KeyError`
whose `str` is `'v'` (with quotes); the index `[0]` is always in range since
`parse_qs` value lists are non-empty. -/
def extract_from_parts (p : SplitResult) : Except String (Option String) :=
  if hostname p = some "youtu.be" then
    Except.ok (some (pyDrop1 p.path))
  else if hostname p = some "www.youtube.com" ∨ hostname p = some "youtube.com" then
    if p.path = "/watch" then
      match parse_qs_get p.query "v" with
      | some (v :: _) => Except.ok (some v)
      | some [] => Except.error "list index out of range"
      | none => Except.error "\x27v\x27"
    else if charStartsWith p.path "/embed/" then
      Except.ok (some ((pySplitSlash p.path).getD 2 ""))
    else if charStartsWith p.path "/v/" then
      Except.ok (some ((pySplitSlash p.path).getD 2 ""))
    else Except.ok none
  else Except.ok none

/-- Embedding of `extract_video_id`.  `Except.error e` models an exception
escaping the function with `str(e) = e`: a `KeyError` (whose `str` is `'v'`
with quotes) when a `/watch` URL has no `v` query parameter, or the
`ValueError` raised by URL parsing.  `Except.ok none` models `return None`. -/
def extract_video_id (url : String) : Except String (Option String) :=
  match urlparseE url with
  | Except.error e => Except.error e
  | Except.ok p => extract_from_parts p

deriving instance DecidableEq for Except

/-! ## Transcript fetcher (app.py lines 27–76)

The external transcript provider is a parameter: a `Service` supplies the
result of `YouTubeTranscriptApi.list_transcripts` (a list of language tracks or
an exception), and each `Track` carries the result of its `fetch()` call.
`st.error` and `st.warning` messages are collected in an `Out` record together
with the returned value. -/

/-- One transcript entry of the fetched data: a dict (whose `text` key, when
present, holds a string) or a non-dict value. -/
inductive Entry where
  | dict (text? : Option String)
  | other
deriving DecidableEq, Repr

/-- The value returned by `transcript.fetch()`: `None`-like (falsy, not a
list), a truthy non-list, or a list of entries. -/
inductive PyData where
  | pynone
  | truthyNonList
  | pylist (es : List Entry)
deriving DecidableEq, Repr

/-- Python truthiness of the fetched data (`if not transcript_data`). -/
def pyTruthy : PyData → Bool
  | PyData.pynone => false
  | PyData.truthyNonList => true
  | PyData.pylist es => !es.isEmpty

/-- One transcript track of the provider's track list. -/
structure Track where
  language : String
  fetchResult : Except String PyData
deriving DecidableEq, Repr

/-- Behaviour of the external transcript provider for the requested video. -/
structure Service where
  listTranscripts : Except String (List Track)
deriving DecidableEq, Repr

/-- Modelled from the spec: the external provider's `find_transcript`, which
selects the first track matching one of the requested language codes and
raises (here: returns an error naming the requested codes) when none does. -/
def find_transcript (tracks : List Track) (langs : List String) : Except String Track :=
  match langs.findSome? (fun l => tracks.find? (fun t => t.language == l)) with
  | some t => Except.ok t
  | none =>
    Except.error ("No transcripts were found for any of the requested language codes: "
      ++ joinWithSpace langs)

/-- The track-selection block of `get_transcript_text` (lines 36–44): try the
requested language, fall back to English with a warning, and on a second
failure report the second failure's message. -/
def selectTranscript (tracks : List Track) (language : String) :
    Except String (Track × List String) :=
  match find_transcript tracks [language] with
  | Except.ok t => Except.ok (t, [])
  | Except.error _ =>
    match find_transcript tracks ["en"] with
    | Except.ok t =>
      Except.ok (t, ["Transcript not available in selected language. Using English instead."])
    | Except.error e2 =>
      Except.error ("Could not find transcript: " ++ e2)

/-- The entry-filtering loop (lines 60–66): keep `entry['text'].strip()` for
each dict entry whose `text` field is present and non-empty. -/
def collectTexts : List Entry → List String
  | [] => []
  | Entry.dict (some t) :: rest =>
    if t = "" then collectTexts rest else pyStrip t :: collectTexts rest
  | _ :: rest => collectTexts rest

/-- Output of a fetcher / generator stage: the returned value plus the
`st.error` and `st.warning` messages it displayed. -/
structure Out where
  result : Option String
  errors : List String
  warnings : List String
deriving DecidableEq, Repr

/-- The part of `get_transcript_text` after a track has been selected
(lines 46–72): fetch the data, validate it, filter and join the entries.
`ws` carries the warnings displayed during selection. -/
def processFetched (t : Track) (ws : List String) : Out :=
  match t.fetchResult with
  | Except.error e => ⟨none, ["Failed to fetch transcript data: " ++ e], ws⟩
  | Except.ok data =>
    if pyTruthy data = false then ⟨none, ["No transcript data received"], ws⟩
    else
      match data with
      | PyData.pylist es =>
        let texts := collectTexts es
        if texts = [] then ⟨none, ["No valid transcript text found in the video"], ws⟩
        else ⟨some (joinWithSpace texts), [], ws⟩
      | _ => ⟨none, ["Received invalid transcript data format"], ws⟩

/-- Embedding of `get_transcript_text(youtube_url, language)`.  The outer
`try` catches the exceptions that escape `extract_video_id` (and the
provider's `list_transcripts`) and reports them as
`Error fetching transcript: ...`. -/
def get_transcript_text (youtube_url : String) (svc : Service) (language : String) : Out :=
  match extract_video_id youtube_url with
  | Except.error e => ⟨none, ["Error fetching transcript: " ++ e], []⟩
  | Except.ok none => ⟨none, ["Invalid YouTube URL"], []⟩
  | Except.ok (some vid) =>
    if vid = "" then ⟨none, ["Invalid YouTube URL"], []⟩
    else
      match svc.listTranscripts with
      | Except.error e => ⟨none, ["Error fetching transcript: " ++ e], []⟩
      | Except.ok tracks =>
        match selectTranscript tracks language with
        | Except.error msg => ⟨none, [msg], []⟩
        | Except.ok (t, ws) => processFetched t ws

/-! ## Summary generator and UI glue (app.py lines 78–135) -/

/-- The three positions of the length slider. -/
inductive Length where
  | Short
  | Medium
  | Long
deriving DecidableEq, Repr

def lengthLabel : Length → String
  | Length.Short => "Short"
  | Length.Medium => "Medium"
  | Length.Long => "Long"

/-- The `length_prompts` dictionary (lines 97–101). -/
def length_prompts : Length → String
  | Length.Short => "Generate a brief summary (max 100 words)"
  | Length.Medium => "Generate a comprehensive summary (max 250 words)"
  | Length.Long => "Generate a detailed summary (max 500 words)"

/-- The `DEFAULT_PROMPT` f-string (lines 103–110), parameterized by the slider
value it interpolates. -/
def DEFAULT_PROMPT (len : Length) : String :=
  "You are a professional YouTube content analyzer. \nGenerate a "
    ++ pyLower (lengthLabel len)
    ++ " summary of this video transcript with these elements:\n1. Key topics covered\n2. Main points discussed\n3. Important conclusions\n4. Overall significance\n\n"
    ++ length_prompts len
    ++ ". Present in clear, concise bullet points:\n"

/-- Embedding of `generate_summary(transcript, prompt)`: the external
generation service `gen` is called on `prompt + transcript` (the directive
first, the transcript appended after it). -/
def generate_summary (gen : String → Except String String) (transcript prompt : String) : Out :=
  match gen (prompt ++ transcript) with
  | Except.ok text => ⟨some text, [], []⟩
  | Except.error e => ⟨none, ["AI Generation Error: " ++ e], []⟩

/-- Embedding of the `Generate Summary` button handler (lines 121–135).
`language` is the select-box value; the call on line 124 passes only the URL,
so `get_transcript_text` runs with its default language `"en"` and `language`
is unused. -/
def on_generate_click (url : String) (language : String) (len : Length)
    (svc : Service) (gen : String → Except String String) : Out :=
  if url = "" then ⟨none, [], ["Please enter a YouTube URL first"]⟩
  else
    let t := get_transcript_text url svc "en"
    match t.result with
    | some tx =>
      if tx = "" then ⟨none, t.errors ++ ["Could not retrieve transcript"], t.warnings⟩
      else
        let s := generate_summary gen tx (DEFAULT_PROMPT len)
        match s.result with
        | some sum =>
          -- `if summary:` is falsy on the empty string too
          if sum = "" then
            ⟨none, t.errors ++ s.errors ++ ["Failed to generate summary"],
              t.warnings ++ s.warnings⟩
          else ⟨some sum, t.errors ++ s.errors, t.warnings ++ s.warnings⟩
        | none =>
          ⟨none, t.errors ++ s.errors ++ ["Failed to generate summary"],
            t.warnings ++ s.warnings⟩
    | none => ⟨none, t.errors ++ ["Could not retrieve transcript"], t.warnings⟩

/-! ## Spec-side definitions (used to state the claims) -/

/-- Spec: an entry is kept exactly when it is a structured (dict) entry with a
non-empty `text` field. -/
def hasNonemptyText : Entry → Bool
  | Entry.dict (some t) => t != ""
  | _ => false

/-- Spec: the trimmed text of a kept entry. -/
def entryTrimmedText : Entry → String
  | Entry.dict (some t) => pyStrip t
  | _ => ""

/-- Spec: keep exactly the structured entries with non-empty text, trim each,
preserving order. -/
def keptTexts (es : List Entry) : List String :=
  (es.filter hasNonemptyText).map entryTrimmedText

/-- `needle` occurs verbatim inside `hay`. -/
def containsPhrase (hay needle : String) : Prop :=
  ∃ pre post, hay = pre ++ needle ++ post

/-- A provider with a single track for language `lang` whose fetch yields `d`. -/
def svcWith (lang : String) (d : Except String PyData) : Service :=
  ⟨Except.ok [⟨lang, d⟩]⟩

/-- A provider with only a Spanish track (used for the language-dropping bug). -/
def svcEs : Service :=
  svcWith "es" (Except.ok (PyData.pylist [Entry.dict (some "hola mundo")]))

/-- A provider with an English track of two entries (the end-to-end scenario). -/
def svcEn : Service :=
  svcWith "en" (Except.ok (PyData.pylist [Entry.dict (some "Hello"), Entry.dict (some "world")]))

/-! ## Claim theorems -/

/-- Claim C1 (code bug): the button handler never passes the user-selected
language to the fetcher.  (i) The handler's outcome is independent of the
selected language; (ii) with a provider offering only a Spanish track and the
user selecting `es`, the handler fails with a could-not-find-transcript error
(the lookup ran with the default `en`); (iii) calling the fetcher with the
selected `es` — as the spec requires — would have succeeded. -/
theorem C1_handler_drops_selected_language :
    (∀ (l1 l2 url : String) (len : Length) (svc : Service)
        (gen : String → Except String String),
      on_generate_click url l1 len svc gen = on_generate_click url l2 len svc gen)
    ∧ on_generate_click "https://youtu.be/abc" "es" Length.Medium svcEs
        (fun s => Except.ok s)
      = ⟨none,
          ["Could not find transcript: No transcripts were found for any of the requested language codes: en",
           "Could not retrieve transcript"], []⟩
    ∧ get_transcript_text "https://youtu.be/abc" svcEs "es"
      = ⟨some "hola mundo", [], []⟩ := by
  refine ⟨fun l1 l2 url len svc gen => rfl, by decide, by decide⟩

/-- Claim C2, counterexample: on the primary-host URL `/watch` with no `v`
query parameter, `extract_video_id` does not return an identifier or signal
NotFound — it raises `KeyError` (whose `str` is `'v'`), which escapes the
resolve operation and is only caught by the caller's broad handler. -/
theorem C2_cx_watch_without_v_raises :
    extract_video_id "https://www.youtube.com/watch" = Except.error "\x27v\x27"
    ∧ get_transcript_text "https://www.youtube.com/watch" svcEn "en"
      = ⟨none, ["Error fetching transcript: \x27v\x27"], []⟩ := by
  exact ⟨by decide, by decide⟩

/-- Claim C8: the composed directive contains `max 100 words` for `Short`,
`max 250 words` for `Medium` and `max 500 words` for `Long`. -/
theorem C8_directive_word_limits :
    containsPhrase (DEFAULT_PROMPT Length.Short) "max 100 words"
    ∧ containsPhrase (DEFAULT_PROMPT Length.Medium) "max 250 words"
    ∧ containsPhrase (DEFAULT_PROMPT Length.Long) "max 500 words" := by
  refine ⟨⟨"You are a professional YouTube content analyzer. \nGenerate a short summary of this video transcript with these elements:\n1. Key topics covered\n2. Main points discussed\n3. Important conclusions\n4. Overall significance\n\nGenerate a brief summary (",
      "). Present in clear, concise bullet points:\n", by decide⟩,
    ⟨"You are a professional YouTube content analyzer. \nGenerate a medium summary of this video transcript with these elements:\n1. Key topics covered\n2. Main points discussed\n3. Important conclusions\n4. Overall significance\n\nGenerate a comprehensive summary (",
      "). Present in clear, concise bullet points:\n", by decide⟩,
    ⟨"You are a professional YouTube content analyzer. \nGenerate a long summary of this video transcript with these elements:\n1. Key topics covered\n2. Main points discussed\n3. Important conclusions\n4. Overall significance\n\nGenerate a detailed summary (",
      "). Present in clear, concise bullet points:\n", by decide⟩⟩

/-- Claim C9: the generation service is invoked on the directive concatenated
directly with the transcript (transcript appended after the directive); with
an echoing generation service the output is exactly directive ++ transcript,
both for `generate_summary` alone and in the end-to-end scenario of the spec
(`watch?v=abc123`, two English entries). -/
theorem C9_prompt_then_transcript :
    (∀ (transcript : String) (len : Length),
      generate_summary (fun s => Except.ok s) transcript (DEFAULT_PROMPT len)
        = ⟨some (DEFAULT_PROMPT len ++ transcript), [], []⟩)
    ∧ on_generate_click "https://www.youtube.com/watch?v=abc123" "en" Length.Medium
        svcEn (fun s => Except.ok s)
      = ⟨some (DEFAULT_PROMPT Length.Medium ++ "Hello world"), [], []⟩ := by
  exact ⟨fun transcript len => rfl, by decide⟩

/-- Claim C10: entries whose text is non-empty but all-whitespace are kept
(the non-emptiness check precedes trimming), each strips to `""`, and the
joined result is returned as the document — no no-valid-transcript-text error
— so a produced document can be empty or carry a leading space. -/
theorem C10_whitespace_only_entries_produce_document :
    get_transcript_text "https://youtu.be/abc"
        (svcWith "en" (Except.ok (PyData.pylist [Entry.dict (some "  ")]))) "en"
      = ⟨some "", [], []⟩
    ∧ get_transcript_text "https://youtu.be/abc"
        (svcWith "en" (Except.ok (PyData.pylist [Entry.dict (some "  "), Entry.dict (some "a")]))) "en"
      = ⟨some " a", [], []⟩ := by
  exact ⟨by decide, by decide⟩

/-! ## Helper lemmas -/

theorem urlsplitE_error_brackets (url e : String) (h : urlsplitE url = Except.error e) :
    ((urlNetlocRest url).1.contains '[' || (urlNetlocRest url).1.contains ']') = true := by
  simp only [urlsplitE] at h
  split at h
  · rename_i hbad
    simp only [badBrackets, Bool.or_eq_true, Bool.and_eq_true] at hbad
    rw [Bool.or_eq_true]
    rcases hbad with ⟨h1, -⟩ | ⟨h1, -⟩
    · exact Or.inl h1
    · exact Or.inr h1
  · split at h
    · rename_i hg
      rw [Bool.and_eq_true] at hg
      rw [Bool.or_eq_true]
      exact Or.inl hg.1
    · exact absurd h (by simp)

theorem urlparseE_error_to_split (url e : String) (h : urlparseE url = Except.error e) :
    urlsplitE url = Except.error e := by
  unfold urlparseE at h
  cases hs : urlsplitE url with
  | error e2 =>
    rw [hs] at h
    simp at h
    rw [h]
  | ok q =>
    rw [hs] at h
    simp at h

theorem urlparseE_ok_eq (url : String) (p : SplitResult)
    (h : urlparseE url = Except.ok p) : p = urlparseOk url := by
  unfold urlparseE at h
  cases hs : urlsplitE url with
  | error e2 =>
    rw [hs] at h
    simp at h
  | ok q =>
    rw [hs] at h
    simp at h
    exact h.symm

theorem extract_video_id_ok (url : String) (p : SplitResult)
    (h : urlparseE url = Except.ok p) :
    extract_video_id url = extract_from_parts p := by
  unfold extract_video_id
  rw [h]

theorem v_not_embed (s : String) (h : charStartsWith s "/v/" = true) :
    charStartsWith s "/embed/" = false := by
  unfold charStartsWith at h ⊢
  rw [show "/v/".toList = ['/', 'v', '/'] from rfl] at h
  rw [show "/embed/".toList = ['/', 'e', 'm', 'b', 'e', 'd', '/'] from rfl]
  cases hl : s.toList with
  | nil => rw [hl] at h; exact absurd h (by decide)
  | cons c0 l1 =>
    rw [hl] at h
    cases l1 with
    | nil => simp [listIsPfx] at h
    | cons c1 l2 =>
      simp only [listIsPfx, Bool.and_eq_true, beq_iff_eq] at h
      obtain ⟨h0, h1, -⟩ := h
      subst h0; subst h1
      rfl

theorem unquoteList_ne_nil (l : List Char) (hl : l ≠ []) : unquoteList l ≠ [] := by
  intro h
  rw [unquoteList.eq_def] at h
  split at h
  · exact hl rfl
  · split at h <;> simp at h
  · simp at h

theorem unquotePlus_ne_empty (l : List Char) (hl : l ≠ []) : unquotePlus l ≠ "" := by
  intro h
  have h2 : unquoteList (l.map (fun c => if c = '+' then ' ' else c)) = [] :=
    congrArg String.data h
  exact unquoteList_ne_nil _ (by simpa using hl) h2

theorem parse_qsl_value_ne (qs : String) (p : String × String)
    (hp : p ∈ parse_qsl qs) : p.2 ≠ "" := by
  unfold parse_qsl at hp
  rw [List.mem_filterMap] at hp
  obtain ⟨nv, -, hnv⟩ := hp
  unfold qsPair at hnv
  split at hnv
  · exact absurd hnv (by simp)
  · split at hnv
    · exact absurd hnv (by simp)
    · split at hnv
      · exact absurd hnv (by simp)
      · injection hnv with hnv
        rw [← hnv]
        apply unquotePlus_ne_empty
        assumption

theorem valuesFor_sub (k : String) (pairs : List (String × String)) (v : String)
    (hv : v ∈ valuesFor k pairs) : (k, v) ∈ pairs := by
  induction pairs with
  | nil => simp [valuesFor] at hv
  | cons p rest ih =>
    obtain ⟨k', w⟩ := p
    rw [valuesFor] at hv
    split at hv
    · rename_i hk
      rcases List.mem_cons.mp hv with h | h
      · subst h; subst hk; exact List.mem_cons_self _ _
      · exact List.mem_cons_of_mem _ (ih h)
    · exact List.mem_cons_of_mem _ (ih hv)

theorem valuesFor_ne_nil (k : String) (pairs : List (String × String))
    (h : pairs.any (fun p => p.1 == k) = true) : valuesFor k pairs ≠ [] := by
  induction pairs with
  | nil => simp at h
  | cons p rest ih =>
    obtain ⟨k', w⟩ := p
    rw [List.any_cons, Bool.or_eq_true] at h
    rw [valuesFor]
    by_cases hk : k' = k
    · simp [hk]
    · rw [if_neg hk]
      rcases h with h | h
      · exact absurd (beq_iff_eq.mp h) hk
      · exact ih h

theorem parse_qs_get_ne_nil (qs k : String) (l : List String)
    (h : parse_qs_get qs k = some l) : l ≠ [] := by
  simp only [parse_qs_get] at h
  split at h
  · rename_i hany
    injection h with h
    rw [← h]
    exact valuesFor_ne_nil k _ hany
  · exact absurd h (by simp)

theorem parse_qs_get_head_ne (qs k v : String) (vs : List String)
    (h : parse_qs_get qs k = some (v :: vs)) : v ≠ "" := by
  simp only [parse_qs_get] at h
  split at h
  · injection h with h
    have hv : v ∈ valuesFor k (parse_qsl qs) := by rw [h]; exact List.mem_cons_self _ _
    exact parse_qsl_value_ne qs (k, v) (valuesFor_sub k _ v hv)
  · exact absurd h (by simp)

theorem collect_eq_kept (es : List Entry) : collectTexts es = keptTexts es := by
  induction es with
  | nil => rfl
  | cons e rest ih =>
    cases e with
    | other => simpa [collectTexts, keptTexts, hasNonemptyText] using ih
    | dict t? =>
      cases t? with
      | none => simpa [collectTexts, keptTexts, hasNonemptyText] using ih
      | some t =>
        by_cases ht : t = ""
        · subst ht
          simpa [collectTexts, keptTexts, hasNonemptyText] using ih
        · simp [collectTexts, keptTexts, hasNonemptyText, entryTrimmedText, ht,
            bne_iff_ne, ih]

/-- Claim C2, amended: for every URL whose network location is pure ASCII
(where the model is exact — the one unmodelled `urlsplit` error path, NFKC
net-location normalization, can only fire on non-ASCII), `extract_video_id`
returns an identifier or `None`, except in exactly two situations: URL
parsing raises `ValueError` — possible only when the network location
contains a square bracket (mismatched, or not enclosing a valid
IPv6/IPvFuture host) — and the `/watch` branch raises the `KeyError` whose
`str` is `'v'` when the query has no `v` parameter. -/
theorem C2_amended_resolver_exceptions (url : String)
    (hascii : (urlNetlocRest url).1.all isAsciiCh = true) :
    (∃ r, extract_video_id url = Except.ok r)
    ∨ (∃ e, extract_video_id url = Except.error e
        ∧ urlparseE url = Except.error e
        ∧ ((urlNetlocRest url).1.contains '[' || (urlNetlocRest url).1.contains ']') = true)
    ∨ (extract_video_id url = Except.error "\x27v\x27"
       ∧ ∃ p, urlparseE url = Except.ok p
         ∧ (hostname p = some "www.youtube.com" ∨ hostname p = some "youtube.com")
         ∧ p.path = "/watch" ∧ parse_qs_get p.query "v" = none) := by
  cases h : urlparseE url with
  | error e =>
    refine Or.inr (Or.inl ⟨e, ?_, rfl, ?_⟩)
    · unfold extract_video_id
      rw [h]
    · exact urlsplitE_error_brackets url e (urlparseE_error_to_split url e h)
  | ok p =>
    rw [extract_video_id_ok url p h]
    unfold extract_from_parts
    by_cases h1 : hostname p = some "youtu.be"
    · exact Or.inl ⟨some (pyDrop1 p.path), by simp [h1]⟩
    · by_cases h2 : hostname p = some "www.youtube.com" ∨ hostname p = some "youtube.com"
      · by_cases h3 : p.path = "/watch"
        · cases hq : parse_qs_get p.query "v" with
          | none => exact Or.inr (Or.inr ⟨by simp [h1, h2, h3, hq], p, rfl, h2, h3, hq⟩)
          | some l =>
            cases l with
            | nil => exact absurd rfl (parse_qs_get_ne_nil _ _ _ hq)
            | cons v vs => exact Or.inl ⟨some v, by simp [h1, h2, h3, hq]⟩
        · by_cases h4 : charStartsWith p.path "/embed/" = true
          · exact Or.inl ⟨some ((pySplitSlash p.path).getD 2 ""), by simp [h1, h2, h3, h4]⟩
          · by_cases h5 : charStartsWith p.path "/v/" = true
            · exact Or.inl ⟨some ((pySplitSlash p.path).getD 2 ""), by simp [h1, h2, h3, h4, h5]⟩
            · exact Or.inl ⟨none, by simp [h1, h2, h3, h4, h5]⟩
      · exact Or.inl ⟨none, by simp [h1, h2]⟩

/-- Witness for amended C2 at the URL of the counterexample: applying the
trichotomy to `https://www.youtube.com/watch` (ASCII authority) lands in the
`KeyError` case. -/
theorem C2_amended_witness :
    extract_video_id "https://www.youtube.com/watch" = Except.error "\x27v\x27" := by
  have h := C2_amended_resolver_exceptions "https://www.youtube.com/watch" (by decide)
  rcases h with ⟨r, hr⟩ | ⟨e, he, hpe, hbr⟩ | ⟨hk, -⟩
  · rw [show extract_video_id "https://www.youtube.com/watch"
        = Except.error "\x27v\x27" from by decide] at hr
    exact absurd hr (by simp)
  · rw [show urlparseE "https://www.youtube.com/watch"
        = Except.ok (urlparseOk "https://www.youtube.com/watch") from by decide] at hpe
    exact absurd hpe (by simp)
  · exact hk

/-- Claim C3, counterexample: the claim's "any other host or path shape
resolves to NotFound" half fails — for the other-host URL `https://[abc]/x`
the program does not return NotFound, it propagates the `ValueError` that
CPython 3.11's `urlsplit` raises for the invalid bracketed host. -/
theorem C3_cx_bracketed_host_raises :
    extract_video_id "https://[abc]/x"
      = Except.error "\x27abc\x27 does not appear to be an IPv4 or IPv6 address" := by
  decide

/-- Claim C3, amended: restricted to URLs whose parsed network location is
pure ASCII and bracket-free (bracketed authorities can raise `ValueError`
instead of resolving, see the counterexample, and the elided NFKC check can
raise only on non-ASCII ones): on each accepted shape the resolver returns
the identifier embedded in the URL (short-link: the path with its leading
slash removed; `/watch`: the first `v` value; `/embed/`, `/v/`: the path
segment after the marker), and on any other host or path shape it returns
`None`. -/
theorem C3_resolver_shape_dispatch (url : String) (p : SplitResult)
    (hp : urlparseE url = Except.ok p)
    (hascii : p.netloc.toList.all isAsciiCh = true)
    (hnl : p.netloc.toList.contains '[' = false)
    (hnr : p.netloc.toList.contains ']' = false) :
    (hostname p = some "youtu.be" →
      extract_video_id url = Except.ok (some (pyDrop1 p.path)))
    ∧ ((hostname p = some "www.youtube.com" ∨ hostname p = some "youtube.com") →
        (∀ v vs, p.path = "/watch" → parse_qs_get p.query "v" = some (v :: vs) →
          extract_video_id url = Except.ok (some v))
        ∧ (charStartsWith p.path "/embed/" = true →
          extract_video_id url = Except.ok (some ((pySplitSlash p.path).getD 2 "")))
        ∧ (charStartsWith p.path "/v/" = true →
          extract_video_id url = Except.ok (some ((pySplitSlash p.path).getD 2 "")))
        ∧ (p.path ≠ "/watch" → charStartsWith p.path "/embed/" = false →
          charStartsWith p.path "/v/" = false → extract_video_id url = Except.ok none))
    ∧ (hostname p ≠ some "youtu.be" → hostname p ≠ some "www.youtube.com" →
        hostname p ≠ some "youtube.com" → extract_video_id url = Except.ok none) := by
  rw [extract_video_id_ok url p hp]
  refine ⟨?_, ?_, ?_⟩
  · intro h
    simp [extract_from_parts, h]
  · intro h
    have hyb : ¬ hostname p = some "youtu.be" := by
      rcases h with h | h <;> rw [h] <;> simp
    refine ⟨?_, ?_, ?_, ?_⟩
    · intro v vs hw hq
      simp [extract_from_parts, hyb, h, hw, hq]
    · intro he
      have hw : ¬ p.path = "/watch" := by
        intro hw; rw [hw] at he; exact absurd he (by decide)
      simp [extract_from_parts, hyb, h, hw, he]
    · intro hv
      have hw : ¬ p.path = "/watch" := by
        intro hw; rw [hw] at hv; exact absurd hv (by decide)
      have he := v_not_embed _ hv
      simp [extract_from_parts, hyb, h, hw, he, hv]
    · intro hw he hv
      simp [extract_from_parts, hyb, h, hw, he, hv]
  · intro h1 h2 h3
    simp [extract_from_parts, h1, h2, h3]

/-- Witness for C3 at the short-link URL of the spec's end-to-end scenario. -/
theorem C3_witness :
    extract_video_id "https://youtu.be/xyz789" = Except.ok (some "xyz789") := by
  have h := (C3_resolver_shape_dispatch "https://youtu.be/xyz789"
    ⟨"https", "youtu.be", "/xyz789", "", ""⟩ (by decide) (by decide) (by decide)
    (by decide)).1 (by decide)
  exact h.trans (by decide)

/-- Claim C4, amended: the resolver can produce an empty identifier — exactly
what the short-link, `/embed/` and `/v/` branches do when nothing follows the
marker — while identifiers produced by the `/watch` branch are always
non-empty; the fetcher treats an empty identifier like a missing one
(`Invalid YouTube URL`), since the caller tests truthiness, not `None`. -/
theorem C4_amended_empty_identifiers :
    (extract_video_id "https://youtu.be/" = Except.ok (some "")
      ∧ extract_video_id "https://www.youtube.com/embed/" = Except.ok (some "")
      ∧ extract_video_id "https://www.youtube.com/v/" = Except.ok (some ""))
    ∧ (∀ (url : String) (svc : Service) (lang : String),
        extract_video_id url = Except.ok (some "") →
        get_transcript_text url svc lang = ⟨none, ["Invalid YouTube URL"], []⟩)
    ∧ (∀ (url : String) (p : SplitResult) (v : String) (vs : List String),
        urlparseE url = Except.ok p →
        (hostname p = some "www.youtube.com" ∨ hostname p = some "youtube.com") →
        p.path = "/watch" → parse_qs_get p.query "v" = some (v :: vs) →
        extract_video_id url = Except.ok (some v) ∧ v ≠ "") := by
  refine ⟨⟨by decide, by decide, by decide⟩, ?_, ?_⟩
  · intro url svc lang h
    unfold get_transcript_text
    rw [h]
    simp
  · intro url p v vs hp hh hw hq
    constructor
    · rw [extract_video_id_ok url p hp]
      have hyb : ¬ hostname p = some "youtu.be" := by
        rcases hh with h | h <;> rw [h] <;> simp
      simp [extract_from_parts, hyb, hh, hw, hq]
    · exact parse_qs_get_head_ne _ _ _ _ hq

/-- Witness for C4 (amended): the empty identifier of `https://youtu.be/` is
rejected by the fetcher as an invalid URL, and a concrete `/watch` URL yields
the non-empty identifier `abc123`. -/
theorem C4_amended_witness :
    get_transcript_text "https://youtu.be/" svcEn "en"
      = ⟨none, ["Invalid YouTube URL"], []⟩
    ∧ (extract_video_id "https://www.youtube.com/watch?v=abc123"
        = Except.ok (some "abc123") ∧ "abc123" ≠ "") := by
  constructor
  · exact C4_amended_empty_identifiers.2.1 "https://youtu.be/" svcEn "en" (by decide)
  · exact C4_amended_empty_identifiers.2.2 "https://www.youtube.com/watch?v=abc123"
      ⟨"https", "www.youtube.com", "/watch", "v=abc123", ""⟩ "abc123" [] (by decide)
      (Or.inl (by decide)) (by decide) (by decide)

/-- Claim C5: whenever the provider returns a list of entries, the produced
document is exactly the kept entries' texts — the structured entries with a
non-empty text field, each trimmed, in original order — joined by single
spaces. -/
theorem C5_document_is_trimmed_join (lang : String) (es : List Entry)
    (h : keptTexts es ≠ []) :
    get_transcript_text "https://youtu.be/abc"
        (svcWith lang (Except.ok (PyData.pylist es))) lang
      = ⟨some (joinWithSpace (keptTexts es)), [], []⟩ := by
  have hes : es ≠ [] := by
    intro he; subst he; exact h rfl
  have hie : es.isEmpty = false := by
    cases es with
    | nil => exact absurd rfl hes
    | cons a l => rfl
  have hx : extract_video_id "https://youtu.be/abc" = Except.ok (some "abc") := by decide
  unfold get_transcript_text
  rw [hx]
  simp [svcWith, selectTranscript, find_transcript, List.findSome?, List.find?,
    processFetched, pyTruthy, hie, collect_eq_kept, h]

/-- Witness for C5: the spec's example entries yield exactly `Hello world`. -/
theorem C5_witness :
    get_transcript_text "https://youtu.be/abc"
        (svcWith "en" (Except.ok (PyData.pylist
          [Entry.dict (some " Hello "), Entry.dict (some ""), Entry.dict (some "world")]))) "en"
      = ⟨some "Hello world", [], []⟩ := by
  have h := C5_document_is_trimmed_join "en"
    [Entry.dict (some " Hello "), Entry.dict (some ""), Entry.dict (some "world")] (by decide)
  exact h.trans (by decide)

/-- Claim C6: when the fetched entry list is non-empty but filtering keeps
nothing, the fetcher reports the no-valid-transcript-text error and returns
no document. -/
theorem C6_no_valid_text_error (lang : String) (es : List Entry)
    (hes : es ≠ []) (h : keptTexts es = []) :
    get_transcript_text "https://youtu.be/abc"
        (svcWith lang (Except.ok (PyData.pylist es))) lang
      = ⟨none, ["No valid transcript text found in the video"], []⟩ := by
  have hie : es.isEmpty = false := by
    cases es with
    | nil => exact absurd rfl hes
    | cons a l => rfl
  have hx : extract_video_id "https://youtu.be/abc" = Except.ok (some "abc") := by decide
  unfold get_transcript_text
  rw [hx]
  simp [svcWith, selectTranscript, find_transcript, List.findSome?, List.find?,
    processFetched, pyTruthy, hie, collect_eq_kept, h]

/-- Witness for C6: entries lacking text, non-dict entries and empty-text
entries are all filtered out, triggering the error. -/
theorem C6_witness :
    get_transcript_text "https://youtu.be/abc"
        (svcWith "en" (Except.ok (PyData.pylist
          [Entry.dict none, Entry.other, Entry.dict (some "")]))) "en"
      = ⟨none, ["No valid transcript text found in the video"], []⟩ :=
  C6_no_valid_text_error "en" [Entry.dict none, Entry.other, Entry.dict (some "")]
    (by decide) (by decide)

/-- Claim C7: if no track matches the preferred language but an English track
exists, the fetcher selects the English track and emits the fallback warning
instead of failing; only when the English lookup fails too does it report an
error, built from the second failure's message (which names `en`). -/
theorem C7_english_fallback :
    (∀ (svc : Service) (tracks : List Track) (preferred : String) (t : Track),
      svc.listTranscripts = Except.ok tracks →
      (∀ tr ∈ tracks, tr.language ≠ preferred) →
      tracks.find? (fun tr => tr.language == "en") = some t →
      get_transcript_text "https://youtu.be/abc" svc preferred
        = processFetched t
            ["Transcript not available in selected language. Using English instead."])
    ∧ (∀ (svc : Service) (tracks : List Track) (preferred : String),
      svc.listTranscripts = Except.ok tracks →
      (∀ tr ∈ tracks, tr.language ≠ preferred) →
      (∀ tr ∈ tracks, tr.language ≠ "en") →
      get_transcript_text "https://youtu.be/abc" svc preferred
        = ⟨none,
            ["Could not find transcript: No transcripts were found for any of the requested language codes: en"],
            []⟩) := by
  have hx : extract_video_id "https://youtu.be/abc" = Except.ok (some "abc") := by decide
  constructor
  · intro svc tracks preferred t hl hnp hen
    have h1 : tracks.find? (fun tr => tr.language == preferred) = none := by
      rw [List.find?_eq_none]
      intro x hx2
      simpa using hnp x hx2
    unfold get_transcript_text
    rw [hx, hl]
    simp [selectTranscript, find_transcript, List.findSome?, h1, hen]
  · intro svc tracks preferred hl hnp hne
    have h1 : tracks.find? (fun tr => tr.language == preferred) = none := by
      rw [List.find?_eq_none]
      intro x hx2
      simpa using hnp x hx2
    have h2 : tracks.find? (fun tr => tr.language == "en") = none := by
      rw [List.find?_eq_none]
      intro x hx2
      simpa using hne x hx2
    unfold get_transcript_text
    rw [hx, hl]
    simp [selectTranscript, find_transcript, List.findSome?, h1, h2, joinWithSpace]

/-- Witness for C7: with French and English tracks and preferred language
`es`, the English transcript is produced together with the fallback
warning. -/
theorem C7_witness :
    get_transcript_text "https://youtu.be/abc"
        ⟨Except.ok [⟨"fr", Except.ok (PyData.pylist [Entry.dict (some "bonjour")])⟩,
          ⟨"en", Except.ok (PyData.pylist [Entry.dict (some "hello")])⟩]⟩ "es"
      = ⟨some "hello", [],
          ["Transcript not available in selected language. Using English instead."]⟩ := by
  have h := C7_english_fallback.1
    ⟨Except.ok [⟨"fr", Except.ok (PyData.pylist [Entry.dict (some "bonjour")])⟩,
      ⟨"en", Except.ok (PyData.pylist [Entry.dict (some "hello")])⟩]⟩
    [⟨"fr", Except.ok (PyData.pylist [Entry.dict (some "bonjour")])⟩,
      ⟨"en", Except.ok (PyData.pylist [Entry.dict (some "hello")])⟩]
    "es" ⟨"en", Except.ok (PyData.pylist [Entry.dict (some "hello")])⟩
    rfl (by decide) (by decide)
  exact h.trans (by decide)

/-- Claim C4, counterexample: for the short-link URL `https://youtu.be/`
(path just `/`) the resolver does not signal NotFound — it produces an
identifier, and that identifier is the empty string, contradicting the
claimed non-emptiness. -/
theorem C4_cx_shortlink_root_empty_id :
    extract_video_id "https://youtu.be/" = Except.ok (some "") := by decide
